import Mathlib

set_option autoImplicit false

/-
Verification development for the CTR prediction service
(services/ctr-predictor/main.py).

Shallow embedding conventions:
  - Python ints are modelled as Int (ids, hours, days) or Nat (counts).
  - Python floats are modelled exactly: ℚ for stored model parameters,
    ℝ for the serving-time arithmetic (sigmoid, scaling).
  - Raised exceptions are modelled with Except; a caught exception is a
    matched error value.
  - The mutable module globals model / scaler / encoders are modelled as a
    ModelState record threaded explicitly.
  - The lru_cache is modelled as an association list plus a counter of
    invocations of the underlying scoring function (the call-count probe).
-/

/-! ## Basic data model (main.py events and training samples) -/

inductive EventType
  | impression
  | click
deriving DecidableEq

/-- One row returned by the ClickHouse query in prepare_training_data:
line_item_id, event_type, device_type, country, publisher_id plus the
hour_of_day and day_of_week columns derived from the timestamp. -/
structure EventRow where
  line_item_id : Int
  event_type : EventType
  device_type : String
  country : String
  publisher_id : Int
  hour_of_day : Int
  day_of_week : Int
deriving DecidableEq

/-- One training sample appended to training_data in prepare_training_data. -/
structure Sample where
  line_item_id : Int
  device_type : String
  country : String
  publisher_id : Int
  hour_of_day : Int
  day_of_week : Int
  clicked : Nat
deriving DecidableEq

/-- The context key used by the groupby in prepare_training_data:
(hour_of_day, day_of_week, device_type, country, publisher_id). -/
abbrev CtxKey := Int × Int × String × String × Int

def ctxOf (e : EventRow) : CtxKey :=
  (e.hour_of_day, e.day_of_week, e.device_type, e.country, e.publisher_id)

def sampleCtx (s : Sample) : CtxKey :=
  (s.hour_of_day, s.day_of_week, s.device_type, s.country, s.publisher_id)

/-! ## Training-set assembler (prepare_training_data, main.py lines 229-275)

The pandas machinery is embedded directly: df[df.line_item_id == li] is a
filter, the groupby over the five context columns visits each distinct
context key of the filtered frame once, and the per-group impression and
click counts are lengths of filtered sublists.  The iteration order of
unique() and groupby (first occurrence vs sorted) is immaterial to the
claims, which only constrain per-group sample counts and membership. -/

def liEvents (evs : List EventRow) (li : Int) : List EventRow :=
  evs.filter (fun e => decide (e.line_item_id = li))

def groupEvents (evs : List EventRow) (li : Int) (k : CtxKey) : List EventRow :=
  (liEvents evs li).filter (fun e => decide (ctxOf e = k))

def impCount (evs : List EventRow) (li : Int) (k : CtxKey) : Nat :=
  ((groupEvents evs li k).filter (fun e => decide (e.event_type = EventType.impression))).length

def clickCount (evs : List EventRow) (li : Int) (k : CtxKey) : Nat :=
  ((groupEvents evs li k).filter (fun e => decide (e.event_type = EventType.click))).length

def mkSample (li : Int) (k : CtxKey) (c : Nat) : Sample :=
  { line_item_id := li
    device_type := k.2.2.1
    country := k.2.2.2.1
    publisher_id := k.2.2.2.2
    hour_of_day := k.1
    day_of_week := k.2.1
    clicked := c }

/-- The body of the per-group branch: if impressions >= min_impressions the
group emits clicks positive samples and min(impressions - clicks, 3*clicks)
negative samples.  Counts are naturals, so the subtraction is truncated at
zero, exactly as range() over a negative Python int produces no iterations. -/
def groupSamples (evs : List EventRow) (li : Int) (k : CtxKey) (m : Nat) : List Sample :=
  let impressions := impCount evs li k
  let clicks := clickCount evs li k
  if m ≤ impressions then
    List.replicate clicks (mkSample li k 1)
      ++ List.replicate (min (impressions - clicks) (3 * clicks)) (mkSample li k 0)
  else []

def uniqueLineItems (evs : List EventRow) : List Int :=
  (evs.map (·.line_item_id)).dedup

def ctxKeys (evs : List EventRow) : List CtxKey :=
  (evs.map ctxOf).dedup

def prepare_training_data (evs : List EventRow) (m : Nat) : List Sample :=
  (uniqueLineItems evs).flatMap fun li =>
    (ctxKeys (liEvents evs li)).flatMap fun k =>
      groupSamples evs li k m

def posPred (li : Int) (k : CtxKey) (s : Sample) : Bool :=
  decide (s.line_item_id = li ∧ sampleCtx s = k ∧ s.clicked = 1)

def negPred (li : Int) (k : CtxKey) (s : Sample) : Bool :=
  decide (s.line_item_id = li ∧ sampleCtx s = k ∧ s.clicked = 0)

def posCount (samples : List Sample) (li : Int) (k : CtxKey) : Nat :=
  samples.countP (posPred li k)

def negCount (samples : List Sample) (li : Int) (k : CtxKey) : Nat :=
  samples.countP (negPred li k)

/-! ## Feature encoder (LabelEncoder fit / transform)

sklearn LabelEncoder.fit stores the sorted distinct string values in
classes_ and transform maps a value to its index in that list.  A reducible
byte-wise string order replaces the library sort; only membership in the
class list and the index function are load-bearing for the claims. -/

def charLtB (a b : Char) : Bool := a.val < b.val

def strLeB : List Char → List Char → Bool
  | [], _ => true
  | _ :: _, [] => false
  | a :: as, b :: bs =>
    if charLtB a b then true
    else if charLtB b a then false
    else strLeB as bs

def strLe (a b : String) : Bool := strLeB a.data b.data

def insertSorted (v : String) : List String → List String
  | [] => [v]
  | w :: ws => if strLe v w then v :: w :: ws else w :: insertSorted v ws

def sortStrings : List String → List String
  | [] => []
  | v :: vs => insertSorted v (sortStrings vs)

/-- LabelEncoder.fit: classes_ = sorted distinct values (np.unique). -/
def fitCodebook (vs : List String) : List String :=
  sortStrings vs.dedup

/-- Index of a value in the class list: LabelEncoder.transform for a value
known to be present. -/
def idxOfStr (v : String) : List String → Nat
  | [] => 0
  | w :: ws => if w = v then 0 else idxOfStr v ws + 1

/-- The four per-column encoders of the model bundle. -/
structure Codebooks where
  line_item_id : List String
  device_type : List String
  country : List String
  publisher_id : List String
deriving DecidableEq

/-- fit of all four encoders in train_model (columns stringified first,
X[col].astype(str)). -/
def fitCodebooks (df : List Sample) : Codebooks :=
  { line_item_id := fitCodebook (df.map fun s => toString s.line_item_id)
    device_type := fitCodebook (df.map (·.device_type))
    country := fitCodebook (df.map (·.country))
    publisher_id := fitCodebook (df.map fun s => toString s.publisher_id) }

/-- Membership test plus transform, as written at serving time:
if value in encoder.classes_: encoder.transform([value])[0]. -/
def lookupCode (classes : List String) (v : String) : Option Nat :=
  if v ∈ classes then some (idxOfStr v classes) else none

/-- Serving-time encoding for device_type, country and publisher_id:
the feature slot starts at 0 (np.zeros) and is overwritten only when the
value is a known class, so an unknown value keeps the sentinel 0. -/
def encodeSentinel (classes : List String) (v : String) : Int :=
  match lookupCode classes v with
  | some c => (c : Int)
  | none => 0

/-- Serving-time encoding for line_item_id: the slot is first assigned the
raw line_item_id (features[0] = line_item_id) and is overwritten by the
learned code only when str(line_item_id) is a known class. -/
def encodeLineItemServe (classes : List String) (li : Int) : Int :=
  match lookupCode classes (toString li) with
  | some c => (c : Int)
  | none => li

/-! ## Feature vectors (training rows and the serving-time assembly) -/

/-- Training-time encoding: le.fit_transform assigns each value its index
in the fitted class list; in train_model the transformed column values are
exactly these indices because fit and transform run on the same column. -/
def codeOf (classes : List String) (v : String) : Int :=
  (idxOfStr v classes : Int)

/-- One row of the training design matrix X after encoding and feature
engineering in train_model: the six encoded/raw fields followed by
is_weekend, is_business_hours, is_evening. -/
def trainFeatureRow (e : Codebooks) (s : Sample) : List Int :=
  [ codeOf e.line_item_id (toString s.line_item_id),
    codeOf e.device_type s.device_type,
    codeOf e.country s.country,
    codeOf e.publisher_id (toString s.publisher_id),
    s.hour_of_day,
    s.day_of_week,
    if s.day_of_week = 5 ∨ s.day_of_week = 6 then 1 else 0,
    if 9 ≤ s.hour_of_day ∧ s.hour_of_day ≤ 17 then 1 else 0,
    if 18 ≤ s.hour_of_day ∧ s.hour_of_day ≤ 22 then 1 else 0 ]

/-- The 9-entry feature vector assembled in predict_ctr_internal
(main.py lines 352-376), prior to scaling.  The renormalization
pub_id = publisher_id or 0 inside the function is the identity on the
already-normalized integer argument and is therefore not repeated here. -/
def serveFeatureVec (e : Codebooks) (li : Int) (dev ctry : String) (pub : Int)
    (hh dd : Int) : List Int :=
  [ encodeLineItemServe e.line_item_id li,
    encodeSentinel e.device_type dev,
    encodeSentinel e.country ctry,
    encodeSentinel e.publisher_id (toString pub),
    hh,
    dd,
    if dd = 5 ∨ dd = 6 then 1 else 0,
    if 9 ≤ hh ∧ hh ≤ 17 then 1 else 0,
    if 18 ≤ hh ∧ hh ≤ 22 then 1 else 0 ]

/-! ## Scaler and classifier (StandardScaler, LogisticRegression)

The fitted parameters are stored exactly as rationals (floats in the
source).  StandardScaler keeps per-column mean and variance; its transform
divides by sqrt(variance), with zero variance mapped to a unit scale.
LogisticRegression keeps a coefficient row and an intercept;
predict_proba for the positive class is the sigmoid of the scaled dot
product.  Both transform and predict_proba fail on a shape mismatch,
modelling the numpy/sklearn dimension check that raises inside the
try-block of predict_ctr_internal. -/

structure Scaler where
  mean : List ℚ
  variance : List ℚ
deriving DecidableEq

structure Classifier where
  coef : List ℚ
  intercept : ℚ
deriving DecidableEq

def meanQ (xs : List ℚ) : ℚ := xs.sum / xs.length

def varQ (xs : List ℚ) : ℚ :=
  ((xs.map fun x => (x - meanQ xs) ^ 2).sum) / xs.length

/-- StandardScaler().fit on the design matrix: per-column mean and
variance (columns obtained by transposing the row-major matrix). -/
def fitScaler (rows : List (List Int)) : Scaler :=
  let cols := (rows.map fun r => r.map (fun n => (n : ℚ))).transpose
  { mean := cols.map meanQ, variance := cols.map varQ }

noncomputable def scaleOf (v : ℚ) : ℝ :=
  if v = 0 then 1 else Real.sqrt (v : ℝ)

noncomputable def scalerTransform (sc : Scaler) (xs : List ℝ) : Except Unit (List ℝ) :=
  if sc.mean.length = xs.length ∧ sc.variance.length = xs.length then
    Except.ok ((xs.zip (sc.mean.zip sc.variance)).map fun p =>
      (p.1 - (p.2.1 : ℝ)) / scaleOf p.2.2)
  else Except.error ()

noncomputable def sigmoid (z : ℝ) : ℝ := 1 / (1 + Real.exp (-z))

noncomputable def dotR (ws xs : List ℝ) : ℝ :=
  ((ws.zip xs).map fun p => p.1 * p.2).sum

noncomputable def predictProba (cl : Classifier) (xs : List ℝ) : Except Unit ℝ :=
  if cl.coef.length = xs.length then
    Except.ok (sigmoid (dotR (cl.coef.map fun q => (q : ℝ)) xs + (cl.intercept : ℝ)))
  else Except.error ()

/-! ## Model state and the scorer (predict_ctr_internal) -/

/-- The three module globals model, scaler, encoders of main.py. -/
structure ModelState where
  model : Option Classifier
  scaler : Option Scaler
  encoders : Option Codebooks
deriving DecidableEq

/-- The assembled feature vector read as reals (the numpy float array). -/
noncomputable def featsR (e : Codebooks) (li : Int) (dev ctry : String)
    (pub : Int) (hh dd : Int) : List ℝ :=
  (serveFeatureVec e li dev ctry pub hh dd).map fun n : Int => (n : ℝ)

/-- The try-block of predict_ctr_internal: assemble the 9 features, scale
them, and read predict_proba; probability is the positive-class entry and
confidence is max(probabilities) = max(1 - p, p). -/
noncomputable def tryBody (m : Classifier) (sc : Scaler) (e : Codebooks)
    (li : Int) (dev ctry : String) (pub : Int) (hh dd : Int) :
    Except Unit (ℝ × ℝ) :=
  match scalerTransform sc (featsR e li dev ctry pub hh dd) with
  | Except.error e1 => Except.error e1
  | Except.ok scaled =>
    match predictProba m scaled with
    | Except.error e2 => Except.error e2
    | Except.ok p => Except.ok (p, max (1 - p) p)

/-- predict_ctr_internal: raises (Except.error) when any of model, scaler,
encoders is missing; otherwise runs the try-block and converts any caught
internal failure into the conservative default (0.01, 0.5). -/
noncomputable def predict_ctr_internal (st : ModelState) (li : Int)
    (dev ctry : String) (pub : Int) (hh dd : Int) : Except Unit (ℝ × ℝ) :=
  match st.model, st.scaler, st.encoders with
  | some m, some sc, some e =>
    Except.ok (match tryBody m sc e li dev ctry pub hh dd with
      | Except.ok r => r
      | Except.error _ => ((0.01 : ℝ), (0.5 : ℝ)))
  | _, _, _ => Except.error ()

/-! ## Prediction cache (lru_cache(maxsize=1000) over predict_ctr_cached) -/

/-- The exact 6-tuple key of predict_ctr_cached. -/
structure CacheKey where
  line_item_id : Int
  device_type : String
  country : String
  publisher_id : Int
  hour_of_day : Int
  day_of_week : Int
deriving DecidableEq

/-- Cache state: recency-ordered entries (most recent first) plus the
call-count probe on the underlying scoring function. -/
structure Cache where
  entries : List (CacheKey × (ℝ × ℝ))
  calls : Nat

def cacheFind : List (CacheKey × (ℝ × ℝ)) → CacheKey → Option (ℝ × ℝ)
  | [], _ => none
  | (k1, v) :: t, k => if k1 = k then some v else cacheFind t k

def touchEntries (l : List (CacheKey × (ℝ × ℝ))) (k : CacheKey) (v : ℝ × ℝ) :
    List (CacheKey × (ℝ × ℝ)) :=
  (k, v) :: l.filter (fun p => decide (p.1 ≠ k))

/-- lru_cache semantics: a hit returns the stored value and refreshes
recency without calling the wrapped function; a miss calls it, and a raised
exception is propagated without being cached; a returned value is cached
with eviction beyond 1000 entries. -/
noncomputable def predict_ctr_cached (st : ModelState) (c : Cache) (k : CacheKey) :
    Except Unit ((ℝ × ℝ) × Cache) :=
  match cacheFind c.entries k with
  | some v => Except.ok (v, { entries := touchEntries c.entries k v, calls := c.calls })
  | none =>
    match predict_ctr_internal st k.line_item_id k.device_type k.country
        k.publisher_id k.hour_of_day k.day_of_week with
    | Except.ok v =>
      Except.ok (v, { entries := ((k, v) :: c.entries).take 1000, calls := c.calls + 1 })
    | Except.error e => Except.error e

/-- Python publisher_id or 0: None and 0 are falsy, any other int is
returned unchanged. -/
def pubOrZero : Option Int → Int
  | none => 0
  | some p => if p = 0 then 0 else p

/-- predict_ctr: normalizes publisher_id and delegates to the cached
function; the cache key is the normalized 6-tuple. -/
def mkKey (li : Int) (dev ctry : String) (pub : Option Int) (hh dd : Int) : CacheKey :=
  { line_item_id := li, device_type := dev, country := ctry,
    publisher_id := pubOrZero pub, hour_of_day := hh, day_of_week := dd }

noncomputable def predict_ctr (st : ModelState) (c : Cache) (li : Int)
    (dev ctry : String) (pub : Option Int) (hh dd : Int) :
    Except Unit ((ℝ × ℝ) × Cache) :=
  predict_ctr_cached st c (mkKey li dev ctry pub hh dd)

/-- Iterated identical calls: each entry of the bundle list is the model
state in effect for one more predict_ctr_cached call with the same key.
Results are collected in order; a raised error leaves the cache unchanged. -/
noncomputable def runCalls (k : CacheKey) : List ModelState → Cache →
    (List (Except Unit (ℝ × ℝ)) × Cache)
  | [], c => ([], c)
  | st :: rest, c =>
    match predict_ctr_cached st c k with
    | Except.ok (v, c1) =>
      let r := runCalls k rest c1
      (Except.ok v :: r.1, r.2)
    | Except.error e =>
      let r := runCalls k rest c
      (Except.error e :: r.1, r.2)

/-! ## Boost translator and the predict endpoint -/

/-- The boost computation of the predict endpoint:
min(ctr_score / 0.01, 2.0) then max(_, 0.5). -/
noncomputable def boost (ctr : ℝ) : ℝ :=
  max (min (ctr / (0.01 : ℝ)) 2) (0.5 : ℝ)

structure PredictionRequest where
  line_item_id : Int
  device_type : String
  country : String
  hour_of_day : Int
  day_of_week : Int
  publisher_id : Option Int

structure PredictionResponse where
  line_item_id : Int
  ctr_score : ℝ
  confidence : ℝ
  boost_multiplier : ℝ

inductive ApiError
  | unavailable
  | serverError
deriving DecidableEq

/-- The predict endpoint: 503 model-unavailable when no model is loaded,
otherwise predict_ctr; any exception from the scoring path becomes a 500
error; on success the response carries the score, confidence and boost. -/
noncomputable def predictEndpoint (st : ModelState) (c : Cache)
    (req : PredictionRequest) : Except ApiError (PredictionResponse × Cache) :=
  if st.model = none then Except.error ApiError.unavailable
  else
    match predict_ctr st c req.line_item_id req.device_type req.country
        req.publisher_id req.hour_of_day req.day_of_week with
    | Except.error _ => Except.error ApiError.serverError
    | Except.ok ((p, conf), c1) =>
      Except.ok
        ({ line_item_id := req.line_item_id
           ctr_score := p
           confidence := conf
           boost_multiplier := boost p }, c1)

/-! ## Model trainer (train_model, main.py lines 281-331)

train_model mutates the three globals in sequence: encoders first (the
per-column fit loop), then scaler (fit_transform), then model (fit).  The
stratified train_test_split raises when a present label class has fewer
than two members or a side of the 80/20 split cannot hold one row per
class; the embedded splitOk models that check.  The classifier fit itself
is the external sklearn solver and is a parameter fitLR; the returned
accuracy/AUC metrics are not referenced by any claim and are elided, the
Bool result standing for normal return (true) versus a raised error
(false). -/

def nTest (n : Nat) : Nat := (n + 4) / 5

def splitOk (y : List Nat) : Bool :=
  y.all (fun c => 2 ≤ y.count c)
    && y.dedup.length ≤ nTest y.length
    && y.dedup.length ≤ y.length - nTest y.length

def trainMatrix (e : Codebooks) (df : List Sample) : List (List Int) :=
  df.map (trainFeatureRow e)

noncomputable def trainScale (sc : Scaler) (rows : List (List Int)) : List (List ℝ) :=
  rows.map fun r =>
    ((r.map fun n => (n : ℝ)).zip (sc.mean.zip sc.variance)).map fun p =>
      (p.1 - (p.2.1 : ℝ)) / scaleOf p.2.2

noncomputable def train_model (fitLR : List (List ℝ) → List Nat → Classifier)
    (df : List Sample) (st : ModelState) : ModelState × Bool :=
  if df = [] then (st, false)
  else
    let e := fitCodebooks df
    let st1 : ModelState := { st with encoders := some e }
    let X := trainMatrix e df
    let y := df.map (·.clicked)
    let sc := fitScaler X
    let st2 : ModelState := { st1 with scaler := some sc }
    let Xs := trainScale sc X
    if splitOk y then
      ({ st2 with model := some (fitLR Xs y) }, true)
    else (st2, false)

/-! ## Concrete inputs used by counterexamples and witnesses -/

def cbLine0 : List String := fitCodebook ["1", "2"]

def ev0 : EventRow :=
  { line_item_id := 1, event_type := EventType.impression, device_type := "mobile",
    country := "US", publisher_id := 7, hour_of_day := 20, day_of_week := 5 }

def ev1 : EventRow := { ev0 with event_type := EventType.click }

def evs0 : List EventRow := [ev0, ev0, ev1]

def k0 : CtxKey := (20, 5, "mobile", "US", 7)

def s0 : Sample :=
  { line_item_id := 7, device_type := "mobile", country := "US",
    publisher_id := 3, hour_of_day := 20, day_of_week := 5, clicked := 1 }

def df0 : List Sample := [s0]

def oldCb : Codebooks :=
  { line_item_id := ["9"], device_type := ["tablet"], country := ["DE"],
    publisher_id := ["4"] }

def oldClf : Classifier := { coef := [1], intercept := 0 }

def oldSc : Scaler := { mean := [0], variance := [1] }

def st0 : ModelState :=
  { model := some oldClf, scaler := some oldSc, encoders := some oldCb }

def fitLR0 : List (List ℝ) → List Nat → Classifier := fun _ _ => { coef := [], intercept := 0 }

/-- A loaded bundle whose scaler has the wrong shape: the transform inside
the try-block raises, so the scorer returns the conservative default. -/
def stBad : ModelState :=
  { model := some { coef := [], intercept := 0 },
    scaler := some { mean := [], variance := [] },
    encoders := some { line_item_id := [], device_type := [], country := [], publisher_id := [] } }

def key0 : CacheKey :=
  { line_item_id := 1, device_type := "mobile", country := "US",
    publisher_id := 0, hour_of_day := 20, day_of_week := 5 }

def cache0 : Cache := { entries := [], calls := 0 }

noncomputable def cache1 : Cache :=
  { entries := [(key0, ((0.01 : ℝ), (0.5 : ℝ)))], calls := 1 }

def stNone : ModelState := { model := none, scaler := none, encoders := none }

/-- A well-shaped bundle: nine scaler columns and nine coefficients. -/
def stGood : ModelState :=
  { model := some { coef := [1, 1, 1, 1, 1, 1, 1, 1, 1], intercept := 0 }
    scaler := some { mean := [0, 0, 0, 0, 0, 0, 0, 0, 0],
                     variance := [1, 1, 1, 1, 1, 1, 1, 1, 1] }
    encoders := some { line_item_id := ["1"], device_type := ["mobile"],
                       country := ["US"], publisher_id := ["7"] } }

def req0 : PredictionRequest :=
  { line_item_id := 1, device_type := "mobile", country := "US",
    hour_of_day := 20, day_of_week := 5, publisher_id := none }

/-! ## Helper lemmas -/

theorem mem_insertSorted {x v : String} {l : List String} :
    x ∈ insertSorted v l ↔ x = v ∨ x ∈ l := by
  induction l with
  | nil => simp [insertSorted]
  | cons w ws ih =>
    by_cases hle : strLe v w = true
    · simp [insertSorted, hle]
    · simp [insertSorted, hle, ih]
      tauto

theorem mem_sortStrings {x : String} {l : List String} :
    x ∈ sortStrings l ↔ x ∈ l := by
  induction l with
  | nil => simp [sortStrings]
  | cons v vs ih => simp [sortStrings, mem_insertSorted, ih]

theorem mem_fitCodebook {x : String} {vs : List String} (h : x ∈ vs) :
    x ∈ fitCodebook vs := by
  unfold fitCodebook
  rw [mem_sortStrings, List.mem_dedup]
  exact h

theorem idxOfStr_lt_length {v : String} {l : List String} (h : v ∈ l) :
    idxOfStr v l < l.length := by
  induction l with
  | nil => cases h
  | cons w ws ih =>
    by_cases hw : w = v
    · simp [idxOfStr, hw]
    · rcases List.mem_cons.mp h with h1 | h1
      · exact absurd h1.symm hw
      · simpa [idxOfStr, hw] using ih h1

theorem encodeSentinel_known {classes : List String} {v : String} (h : v ∈ classes) :
    encodeSentinel classes v = codeOf classes v := by
  simp [encodeSentinel, lookupCode, codeOf, h]

theorem encodeSentinel_unknown {classes : List String} {v : String} (h : v ∉ classes) :
    encodeSentinel classes v = 0 := by
  simp [encodeSentinel, lookupCode, h]

theorem encodeLineItemServe_known {classes : List String} {li : Int}
    (h : toString li ∈ classes) :
    encodeLineItemServe classes li = codeOf classes (toString li) := by
  simp [encodeLineItemServe, lookupCode, codeOf, h]

theorem encodeLineItemServe_unknown {classes : List String} {li : Int}
    (h : toString li ∉ classes) :
    encodeLineItemServe classes li = li := by
  simp [encodeLineItemServe, lookupCode, h]

/-! ## Claim theorems: encoder and feature vector -/

/-- Claim C1, counterexample: with a fitted codebook whose known set is
the strings 1 and 2, serving-time encoding of the unknown line_item_id 5
returns the raw value 5, not the sentinel 0, refuting the claim as stated
for the line_item_id field. -/
theorem line_item_unknown_not_sentinel :
    toString (5 : Int) ∉ cbLine0
      ∧ encodeLineItemServe cbLine0 5 = 5
      ∧ ((5 : Int) ≠ 0) := by decide

/-- Claim C1 (amended): for device_type, country and publisher_id,
serving-time encoding returns the learned code (the index in the fitted
class list, which lies in [0, number of known values)) when the value is
known and the sentinel 0 otherwise; for line_item_id a known value maps to
its learned code but an unknown value falls back to the raw line_item_id
itself rather than 0; encoding is a total function and never fails. -/
theorem serving_encode_known_and_unknown (classes : List String) (v : String) (li : Int) :
    (v ∈ classes → encodeSentinel classes v = (idxOfStr v classes : Int)
        ∧ idxOfStr v classes < classes.length)
      ∧ (v ∉ classes → encodeSentinel classes v = 0)
      ∧ (toString li ∈ classes →
          encodeLineItemServe classes li = (idxOfStr (toString li) classes : Int)
            ∧ idxOfStr (toString li) classes < classes.length)
      ∧ (toString li ∉ classes → encodeLineItemServe classes li = li) := by
  refine ⟨fun h => ⟨encodeSentinel_known h, idxOfStr_lt_length h⟩,
    fun h => encodeSentinel_unknown h,
    fun h => ⟨encodeLineItemServe_known h, idxOfStr_lt_length h⟩,
    fun h => encodeLineItemServe_unknown h⟩

/-- Claim C1 witness: concrete evaluations of the amended statement on the
fitted codebook over the values 1 and 2. -/
theorem serving_encode_known_and_unknown_witness :
    (("1" ∈ cbLine0 → encodeSentinel cbLine0 "1" = (idxOfStr "1" cbLine0 : Int)
        ∧ idxOfStr "1" cbLine0 < cbLine0.length)
      ∧ ("1" ∉ cbLine0 → encodeSentinel cbLine0 "1" = 0)
      ∧ (toString (5 : Int) ∈ cbLine0 →
          encodeLineItemServe cbLine0 5 = (idxOfStr (toString (5 : Int)) cbLine0 : Int)
            ∧ idxOfStr (toString (5 : Int)) cbLine0 < cbLine0.length)
      ∧ (toString (5 : Int) ∉ cbLine0 → encodeLineItemServe cbLine0 5 = 5))
      ∧ "1" ∈ cbLine0 ∧ toString (5 : Int) ∉ cbLine0 :=
  ⟨serving_encode_known_and_unknown cbLine0 "1" 5, by decide, by decide⟩

/-- Claim C2: for a sample of the training set and the codebooks fitted on
that set, the 9-entry feature vector assembled by the serving path on the
same six field values equals, position by position, the row the trainer
assembles for that sample. -/
theorem serving_vector_matches_training_vector (df : List Sample) (s : Sample)
    (hs : s ∈ df) :
    serveFeatureVec (fitCodebooks df) s.line_item_id s.device_type s.country
        s.publisher_id s.hour_of_day s.day_of_week
      = trainFeatureRow (fitCodebooks df) s := by
  have h0 : toString s.line_item_id ∈ (fitCodebooks df).line_item_id :=
    mem_fitCodebook (List.mem_map.mpr ⟨s, hs, rfl⟩)
  have h1 : s.device_type ∈ (fitCodebooks df).device_type :=
    mem_fitCodebook (List.mem_map.mpr ⟨s, hs, rfl⟩)
  have h2 : s.country ∈ (fitCodebooks df).country :=
    mem_fitCodebook (List.mem_map.mpr ⟨s, hs, rfl⟩)
  have h3 : toString s.publisher_id ∈ (fitCodebooks df).publisher_id :=
    mem_fitCodebook (List.mem_map.mpr ⟨s, hs, rfl⟩)
  simp [serveFeatureVec, trainFeatureRow, encodeLineItemServe_known h0,
    encodeSentinel_known h1, encodeSentinel_known h2, encodeSentinel_known h3]

/-- Claim C2 witness: the serving vector and the training row coincide on
a concrete one-sample training set. -/
theorem serving_vector_matches_training_vector_witness :
    serveFeatureVec (fitCodebooks df0) s0.line_item_id s0.device_type s0.country
        s0.publisher_id s0.hour_of_day s0.day_of_week
      = trainFeatureRow (fitCodebooks df0) s0 :=
  serving_vector_matches_training_vector df0 s0 (by decide)

/-! ## Claim theorems: boost translator and unavailable signal -/

/-- Claim C9: boost is the clamp of ctr_score / 0.01 to [0.5, 2.0];
boost 0.01 = 1, boost 0.02 = 2 (capped), boost 0.001 = 0.5 (floored), and
every output lies in [0.5, 2.0]. -/
theorem boost_clamp :
    boost 0.01 = 1 ∧ boost 0.02 = 2 ∧ boost 0.001 = 0.5
      ∧ ∀ ctr : ℝ, 0.5 ≤ boost ctr ∧ boost ctr ≤ 2 := by
  refine ⟨?_, ?_, ?_, fun ctr => ⟨le_max_right _ _, max_le (min_le_right _ _) (by norm_num)⟩⟩
  · unfold boost
    norm_num
  · unfold boost
    norm_num
  · unfold boost
    rw [min_def, max_def]
    norm_num

/-- Claim C6: the predict endpoint invoked while no model is loaded
returns the explicit model-unavailable error (HTTP 503) and no score. -/
theorem predict_no_model_unavailable (st : ModelState) (c : Cache)
    (req : PredictionRequest) (h : st.model = none) :
    predictEndpoint st c req = Except.error ApiError.unavailable := by
  unfold predictEndpoint
  rw [if_pos h]

/-- Claim C6 witness: the unavailable signal on a concrete empty state. -/
theorem predict_no_model_unavailable_witness :
    predictEndpoint stNone cache0 req0 = Except.error ApiError.unavailable :=
  predict_no_model_unavailable stNone cache0 req0 rfl

/-! ## Scorer lemmas -/

theorem sigmoid_pos (z : ℝ) : 0 < sigmoid z := by
  unfold sigmoid
  positivity

theorem sigmoid_lt_one (z : ℝ) : sigmoid z < 1 := by
  unfold sigmoid
  rw [div_lt_one (by positivity)]
  linarith [Real.exp_pos (-z)]

theorem tryBody_ok_shape {m : Classifier} {sc : Scaler} {e : Codebooks}
    {li : Int} {dev ctry : String} {pub : Int} {hh dd : Int} {r : ℝ × ℝ}
    (h : tryBody m sc e li dev ctry pub hh dd = Except.ok r) :
    ∃ z, r = (sigmoid z, max (1 - sigmoid z) (sigmoid z)) := by
  unfold tryBody at h
  rcases hsc : scalerTransform sc (featsR e li dev ctry pub hh dd) with e1 | scaled
  · rw [hsc] at h
    simp at h
  · rw [hsc] at h
    dsimp only at h
    rcases hp : predictProba m scaled with e2 | p
    · rw [hp] at h
      simp at h
    · rw [hp] at h
      simp only [Except.ok.injEq] at h
      unfold predictProba at hp
      by_cases hlen : m.coef.length = scaled.length
      · rw [if_pos hlen] at hp
        refine ⟨dotR (m.coef.map fun q => (q : ℝ)) scaled + (m.intercept : ℝ), ?_⟩
        cases hp
        exact h.symm
      · rw [if_neg hlen] at hp
        cases hp

/-- Claim C5: with a model bundle loaded, any internal failure inside the
try-block of predict_ctr_internal (feature scaling or inference) is caught
and converted into exactly the conservative default (0.01, 0.5); the
exception is not propagated to the caller. -/
theorem internal_fault_returns_default (st : ModelState) (m : Classifier)
    (sc : Scaler) (e : Codebooks) (li : Int) (dev ctry : String) (pub : Int)
    (hh dd : Int) (hm : st.model = some m) (hs : st.scaler = some sc)
    (he : st.encoders = some e)
    (herr : tryBody m sc e li dev ctry pub hh dd = Except.error ()) :
    predict_ctr_internal st li dev ctry pub hh dd = Except.ok ((0.01 : ℝ), (0.5 : ℝ)) := by
  have hst : st = ⟨some m, some sc, some e⟩ := by
    obtain ⟨om, osc, oe⟩ := st
    simp only at hm hs he
    rw [hm, hs, he]
  rw [hst]
  simp only [predict_ctr_internal, herr]

/-- Claim C5 witness: a loaded bundle whose scaler has the wrong shape
makes the try-block fail, and the scorer returns the default. -/
theorem internal_fault_returns_default_witness :
    predict_ctr_internal stBad 1 "mobile" "US" 0 20 5 = Except.ok ((0.01 : ℝ), (0.5 : ℝ)) :=
  internal_fault_returns_default stBad { coef := [], intercept := 0 }
    { mean := [], variance := [] }
    { line_item_id := [], device_type := [], country := [], publisher_id := [] }
    1 "mobile" "US" 0 20 5 rfl rfl rfl rfl

/-- Claim C8: every result the scorer produces, whether computed from the
model (a sigmoid probability with confidence max(1-p, p)) or the caught
default (0.01, 0.5), has ctr_score in [0, 1] and confidence in [0.5, 1]. -/
theorem score_bounds (st : ModelState) (li : Int) (dev ctry : String)
    (pub hh dd : Int) (r : ℝ × ℝ)
    (h : predict_ctr_internal st li dev ctry pub hh dd = Except.ok r) :
    0 ≤ r.1 ∧ r.1 ≤ 1 ∧ (0.5 : ℝ) ≤ r.2 ∧ r.2 ≤ 1 := by
  obtain ⟨om, osc, oe⟩ := st
  cases om with
  | none => simp [predict_ctr_internal] at h
  | some m =>
    cases osc with
    | none => simp [predict_ctr_internal] at h
    | some sc =>
      cases oe with
      | none => simp [predict_ctr_internal] at h
      | some e =>
        simp only [predict_ctr_internal, Except.ok.injEq] at h
        rcases ht : tryBody m sc e li dev ctry pub hh dd with e1 | v
        · rw [ht] at h
          rw [← h]
          norm_num
        · rw [ht] at h
          obtain ⟨z, hz⟩ := tryBody_ok_shape ht
          rw [← h, hz]
          have h0 := sigmoid_pos z
          have h1 := sigmoid_lt_one z
          refine ⟨le_of_lt h0, le_of_lt h1, ?_, ?_⟩
          · rcases le_total (sigmoid z) (0.5 : ℝ) with hle | hle
            · exact le_trans (by linarith) (le_max_left _ _)
            · exact le_trans hle (le_max_right _ _)
          · exact max_le (by linarith) (le_of_lt h1)

/-- Claim C8 witness: bounds instantiated at the default result produced
by the concrete faulty bundle. -/
theorem score_bounds_witness :
    0 ≤ (((0.01 : ℝ), (0.5 : ℝ))).1 ∧ (((0.01 : ℝ), (0.5 : ℝ))).1 ≤ 1
      ∧ (0.5 : ℝ) ≤ (((0.01 : ℝ), (0.5 : ℝ))).2 ∧ (((0.01 : ℝ), (0.5 : ℝ))).2 ≤ 1 :=
  score_bounds stBad 1 "mobile" "US" 0 20 5 ((0.01 : ℝ), (0.5 : ℝ)) rfl

/-! ## Claim theorems: trainer state effects -/

/-- Claim C4, counterexample: on a one-sample training set the stratified
split raises (the only label class has a single member), train_model fails
after the encoders global has already been replaced, and the resulting
observable state pairs the new encoders with the old classifier, refuting
the claim that any failing train leaves the previous bundle untouched. -/
theorem train_failure_mixed_bundle :
    (train_model fitLR0 df0 st0).2 = false
      ∧ (train_model fitLR0 df0 st0).1.encoders ≠ st0.encoders
      ∧ (train_model fitLR0 df0 st0).1.model = st0.model := by
  refine ⟨by decide, by decide, by decide⟩

/-- Claim C4 (amended): training on an empty sample set fails with the
no-data error before any fitting and leaves the loaded bundle untouched;
but a later error during fitting (the stratified split) fails after the
encoders and the scaler have already been replaced, leaving a state that
pairs the new encoders and scaler with the old classifier. -/
theorem train_state_effects (fitLR : List (List ℝ) → List Nat → Classifier)
    (df : List Sample) (st : ModelState) :
    (df = [] → train_model fitLR df st = (st, false))
      ∧ (df ≠ [] → splitOk (df.map (·.clicked)) = false →
          train_model fitLR df st
            = ({ st with
                  encoders := some (fitCodebooks df)
                  scaler := some (fitScaler (trainMatrix (fitCodebooks df) df)) },
               false)) := by
  constructor
  · intro h
    unfold train_model
    rw [if_pos h]
  · intro h hsplit
    unfold train_model
    rw [if_neg h]
    simp only [hsplit, Bool.false_eq_true, if_false]

/-- Claim C4 witness: both branches of the amended statement at concrete
inputs, the empty set and the one-sample set. -/
theorem train_state_effects_witness :
    train_model fitLR0 [] st0 = (st0, false)
      ∧ train_model fitLR0 df0 st0
          = ({ st0 with
                encoders := some (fitCodebooks df0)
                scaler := some (fitScaler (trainMatrix (fitCodebooks df0) df0)) },
             false) :=
  ⟨(train_state_effects fitLR0 [] st0).1 rfl,
   (train_state_effects fitLR0 df0 st0).2 (by decide) (by decide)⟩

/-! ## Cache lemmas -/

theorem cacheFind_touch (l : List (CacheKey × (ℝ × ℝ))) (k : CacheKey) (v : ℝ × ℝ) :
    cacheFind (touchEntries l k v) k = some v := by
  simp [touchEntries, cacheFind]

theorem cache_hit {c : Cache} {k : CacheKey} {v : ℝ × ℝ} (st : ModelState)
    (h : cacheFind c.entries k = some v) :
    predict_ctr_cached st c k
      = Except.ok (v, { entries := touchEntries c.entries k v, calls := c.calls }) := by
  unfold predict_ctr_cached
  rw [h]

theorem cached_ok_find {st : ModelState} {c : Cache} {k : CacheKey}
    {v : ℝ × ℝ} {c1 : Cache} (h : predict_ctr_cached st c k = Except.ok (v, c1)) :
    cacheFind c1.entries k = some v := by
  unfold predict_ctr_cached at h
  rcases hf : cacheFind c.entries k with _ | w
  · rw [hf] at h
    dsimp only at h
    rcases hi : predict_ctr_internal st k.line_item_id k.device_type k.country
        k.publisher_id k.hour_of_day k.day_of_week with e1 | w
    · rw [hi] at h
      simp at h
    · rw [hi] at h
      simp only [Except.ok.injEq, Prod.mk.injEq] at h
      obtain ⟨hv, hc⟩ := h
      rw [← hc, ← hv]
      show cacheFind (((k, w) :: c.entries).take 1000) k = some w
      rw [List.take_succ_cons]
      simp [cacheFind]
  · rw [hf] at h
    simp only [Except.ok.injEq, Prod.mk.injEq] at h
    obtain ⟨hv, hc⟩ := h
    rw [← hc, ← hv]
    exact cacheFind_touch c.entries k w

/-- Invariant: once the key is cached with value v, every further call with
that key (under any model state) returns v, leaves the cached value in
place, and never invokes the underlying scoring function. -/
theorem runCalls_cons_ok {st : ModelState} {c : Cache} {k : CacheKey}
    {v : ℝ × ℝ} {c1 : Cache} (h : predict_ctr_cached st c k = Except.ok (v, c1))
    (rest : List ModelState) :
    runCalls k (st :: rest) c
      = (Except.ok v :: (runCalls k rest c1).1, (runCalls k rest c1).2) := by
  simp only [runCalls]
  rw [h]

theorem runCalls_hit (k : CacheKey) (v : ℝ × ℝ) :
    ∀ (sts : List ModelState) (c : Cache), cacheFind c.entries k = some v →
      (∀ r ∈ (runCalls k sts c).1, r = Except.ok v)
        ∧ (runCalls k sts c).2.calls = c.calls := by
  intro sts
  induction sts with
  | nil =>
    intro c _
    exact ⟨fun r hr => absurd hr (List.not_mem_nil r), rfl⟩
  | cons st rest ih =>
    intro c hc
    have hcall := cache_hit st hc
    have hrec := ih { entries := touchEntries c.entries k v, calls := c.calls }
      (cacheFind_touch c.entries k v)
    rw [runCalls_cons_ok hcall rest]
    constructor
    · intro r hr
      rcases List.mem_cons.mp hr with h1 | h1
      · exact h1
      · exact hrec.1 r h1
    · exact hrec.2

/-! ## Claim theorems: prediction cache -/

/-- Claim C7: a successful predict call caches its result under the exact
6-tuple key: a second identical call returns the identical value and is
served from the cache, leaving the call counter of the underlying scoring
function unchanged; and predict with publisher_id None and with
publisher_id 0 produce the same cache key (both normalize to 0) and hence
the same result. -/
theorem cache_repeat_and_key_collision (st : ModelState) (c : Cache)
    (k : CacheKey) (v : ℝ × ℝ) (c1 : Cache)
    (h : predict_ctr_cached st c k = Except.ok (v, c1)) :
    (∃ c2, predict_ctr_cached st c1 k = Except.ok (v, c2) ∧ c2.calls = c1.calls)
      ∧ (∀ (st2 : ModelState) (c3 : Cache) (li : Int) (dev ctry : String) (hh dd : Int),
          mkKey li dev ctry none hh dd = mkKey li dev ctry (some 0) hh dd
            ∧ predict_ctr st2 c3 li dev ctry none hh dd
                = predict_ctr st2 c3 li dev ctry (some 0) hh dd) := by
  constructor
  · have hf := cached_ok_find h
    exact ⟨_, cache_hit st hf, rfl⟩
  · intro st2 c3 li dev ctry hh dd
    constructor
    · rfl
    · rfl

/-- Claim C7 witness: concrete first call (underlying function invoked
once, default returned by the faulty bundle), repeated call served from
cache with an unchanged counter, and the key collision at concrete
arguments. -/
theorem cache_repeat_and_key_collision_witness :
    (∃ c2, predict_ctr_cached stBad cache1 key0 = Except.ok (((0.01 : ℝ), (0.5 : ℝ)), c2)
        ∧ c2.calls = cache1.calls)
      ∧ (∀ (st2 : ModelState) (c3 : Cache) (li : Int) (dev ctry : String) (hh dd : Int),
          mkKey li dev ctry none hh dd = mkKey li dev ctry (some 0) hh dd
            ∧ predict_ctr st2 c3 li dev ctry none hh dd
                = predict_ctr st2 c3 li dev ctry (some 0) hh dd) :=
  cache_repeat_and_key_collision stBad cache0 key0 ((0.01 : ℝ), (0.5 : ℝ)) cache1 rfl

/-- Claim C10: when the first scoring call for a key returns the
conservative default (0.01, 0.5) - in particular when an internal fault
produced it - the default is cached like any other value: every subsequent
call with the same key returns (0.01, 0.5) without re-invoking the scoring
function, whatever model states (including a repaired bundle) are in
effect for those calls. -/
theorem cached_default_persists (st : ModelState) (c : Cache) (k : CacheKey)
    (c1 : Cache)
    (h : predict_ctr_cached st c k = Except.ok (((0.01 : ℝ), (0.5 : ℝ)), c1))
    (sts : List ModelState) :
    (∀ r ∈ (runCalls k sts c1).1, r = Except.ok ((0.01 : ℝ), (0.5 : ℝ)))
      ∧ (runCalls k sts c1).2.calls = c1.calls :=
  runCalls_hit k ((0.01 : ℝ), (0.5 : ℝ)) sts c1 (cached_ok_find h)

/-- Claim C10 witness: the faulty bundle caches the default on the first
call; a later call under a healthy bundle (9-feature scaler and
classifier) still returns the cached default with no new invocation. -/
theorem cached_default_persists_witness :
    (∀ r ∈ (runCalls key0 [stGood] cache1).1, r = Except.ok ((0.01 : ℝ), (0.5 : ℝ)))
      ∧ (runCalls key0 [stGood] cache1).2.calls = cache1.calls :=
  cached_default_persists stBad cache0 key0 cache1 rfl [stGood]

/-! ## Assembler lemmas -/

theorem mkSample_line_item (li : Int) (k : CtxKey) (c : Nat) :
    (mkSample li k c).line_item_id = li := rfl

theorem sampleCtx_mkSample (li : Int) (k : CtxKey) (c : Nat) :
    sampleCtx (mkSample li k c) = k := rfl

theorem mkSample_clicked (li : Int) (k : CtxKey) (c : Nat) :
    (mkSample li k c).clicked = c := rfl

theorem posPred_mkSample_one (li : Int) (k : CtxKey) :
    posPred li k (mkSample li k 1) = true := by
  simp [posPred, mkSample_line_item, sampleCtx_mkSample, mkSample_clicked]

theorem posPred_mkSample_zero (li : Int) (k : CtxKey) :
    posPred li k (mkSample li k 0) = false := by
  simp [posPred, mkSample_clicked]

theorem negPred_mkSample_zero (li : Int) (k : CtxKey) :
    negPred li k (mkSample li k 0) = true := by
  simp [negPred, mkSample_line_item, sampleCtx_mkSample, mkSample_clicked]

theorem negPred_mkSample_one (li : Int) (k : CtxKey) :
    negPred li k (mkSample li k 1) = false := by
  simp [negPred, mkSample_clicked]

theorem posPred_mkSample_ne {li li2 : Int} {k k2 : CtxKey}
    (h : ¬(li2 = li ∧ k2 = k)) (c : Nat) :
    posPred li k (mkSample li2 k2 c) = false := by
  simp only [posPred, mkSample_line_item, sampleCtx_mkSample, decide_eq_false_iff_not]
  tauto

theorem negPred_mkSample_ne {li li2 : Int} {k k2 : CtxKey}
    (h : ¬(li2 = li ∧ k2 = k)) (c : Nat) :
    negPred li k (mkSample li2 k2 c) = false := by
  simp only [negPred, mkSample_line_item, sampleCtx_mkSample, decide_eq_false_iff_not]
  tauto

theorem groupSamples_countP_pos (evs : List EventRow) (li : Int) (k : CtxKey) (m : Nat) :
    (groupSamples evs li k m).countP (posPred li k)
      = if m ≤ impCount evs li k then clickCount evs li k else 0 := by
  simp only [groupSamples]
  by_cases hm : m ≤ impCount evs li k
  · rw [if_pos hm, if_pos hm, List.countP_append, List.countP_replicate, List.countP_replicate,
      posPred_mkSample_one, posPred_mkSample_zero]
    simp
  · rw [if_neg hm, if_neg hm]
    rfl

theorem groupSamples_countP_neg (evs : List EventRow) (li : Int) (k : CtxKey) (m : Nat) :
    (groupSamples evs li k m).countP (negPred li k)
      = if m ≤ impCount evs li k then
          min (impCount evs li k - clickCount evs li k) (3 * clickCount evs li k)
        else 0 := by
  simp only [groupSamples]
  by_cases hm : m ≤ impCount evs li k
  · rw [if_pos hm, if_pos hm, List.countP_append, List.countP_replicate, List.countP_replicate,
      negPred_mkSample_one, negPred_mkSample_zero]
    simp
  · rw [if_neg hm, if_neg hm]
    rfl

theorem groupSamples_countP_pos_ne (evs : List EventRow) (m : Nat)
    {li li2 : Int} {k k2 : CtxKey} (h : ¬(li2 = li ∧ k2 = k)) :
    (groupSamples evs li2 k2 m).countP (posPred li k) = 0 := by
  simp only [groupSamples]
  by_cases hm : m ≤ impCount evs li2 k2
  · rw [if_pos hm, List.countP_append, List.countP_replicate, List.countP_replicate,
      posPred_mkSample_ne h, posPred_mkSample_ne h]
    simp
  · rw [if_neg hm]
    rfl

theorem groupSamples_countP_neg_ne (evs : List EventRow) (m : Nat)
    {li li2 : Int} {k k2 : CtxKey} (h : ¬(li2 = li ∧ k2 = k)) :
    (groupSamples evs li2 k2 m).countP (negPred li k) = 0 := by
  simp only [groupSamples]
  by_cases hm : m ≤ impCount evs li2 k2
  · rw [if_pos hm, List.countP_append, List.countP_replicate, List.countP_replicate,
      negPred_mkSample_ne h, negPred_mkSample_ne h]
    simp
  · rw [if_neg hm]
    rfl

theorem sum_map_single {α : Type} [DecidableEq α] (x : α) (g : α → Nat) :
    ∀ l : List α, l.Nodup → (∀ y ∈ l, y ≠ x → g y = 0) →
      (l.map g).sum = if x ∈ l then g x else 0 := by
  intro l
  induction l with
  | nil =>
    intro _ _
    simp
  | cons a t ih =>
    intro hnd h0
    rcases List.nodup_cons.mp hnd with ⟨hat, hndt⟩
    rw [List.map_cons, List.sum_cons]
    by_cases hax : a = x
    · subst hax
      have ht0 : (t.map g).sum = 0 := by
        apply List.sum_eq_zero
        intro y hy
        rcases List.mem_map.mp hy with ⟨z, hz, rfl⟩
        exact h0 z (List.mem_cons_of_mem a hz) (fun hzx => hat (hzx ▸ hz))
      simp [ht0]
    · have ha0 : g a = 0 := h0 a (List.mem_cons_self a t) hax
      have hrest := ih hndt (fun y hy hyx => h0 y (List.mem_cons_of_mem a hy) hyx)
      have hmem : (x ∈ a :: t) ↔ x ∈ t := by
        rw [List.mem_cons]
        constructor
        · intro hx
          rcases hx with h1 | h1
          · exact absurd h1.symm hax
          · exact h1
        · exact Or.inr
      rw [ha0, hrest, Nat.zero_add]
      by_cases hx : x ∈ t
      · rw [if_pos hx, if_pos (hmem.mpr hx)]
      · rw [if_neg hx, if_neg (fun hc => hx (hmem.mp hc))]

theorem liEvents_nil {evs : List EventRow} {li : Int} (h : li ∉ uniqueLineItems evs) :
    liEvents evs li = [] := by
  rw [List.eq_nil_iff_forall_not_mem]
  intro e he
  rcases List.mem_filter.mp he with ⟨hev, hdec⟩
  exact h (List.mem_dedup.mpr (List.mem_map.mpr ⟨e, hev, of_decide_eq_true hdec⟩))

theorem groupEvents_nil {evs : List EventRow} {li : Int} {k : CtxKey}
    (h : k ∉ ctxKeys (liEvents evs li)) :
    groupEvents evs li k = [] := by
  rw [List.eq_nil_iff_forall_not_mem]
  intro e he
  rcases List.mem_filter.mp he with ⟨hli, hdec⟩
  exact h (List.mem_dedup.mpr (List.mem_map.mpr ⟨e, hli, of_decide_eq_true hdec⟩))

theorem impCount_zero_no_li {evs : List EventRow} {li : Int} (k : CtxKey)
    (h : li ∉ uniqueLineItems evs) : impCount evs li k = 0 := by
  unfold impCount groupEvents
  rw [liEvents_nil h]
  rfl

theorem clickCount_zero_no_li {evs : List EventRow} {li : Int} (k : CtxKey)
    (h : li ∉ uniqueLineItems evs) : clickCount evs li k = 0 := by
  unfold clickCount groupEvents
  rw [liEvents_nil h]
  rfl

theorem impCount_zero_no_ctx {evs : List EventRow} {li : Int} {k : CtxKey}
    (h : k ∉ ctxKeys (liEvents evs li)) : impCount evs li k = 0 := by
  unfold impCount
  rw [groupEvents_nil h]
  rfl

theorem clickCount_zero_no_ctx {evs : List EventRow} {li : Int} {k : CtxKey}
    (h : k ∉ ctxKeys (liEvents evs li)) : clickCount evs li k = 0 := by
  unfold clickCount
  rw [groupEvents_nil h]
  rfl

theorem posCount_prepare (evs : List EventRow) (m : Nat) (li : Int) (k : CtxKey) :
    posCount (prepare_training_data evs m) li k
      = if m ≤ impCount evs li k then clickCount evs li k else 0 := by
  unfold posCount prepare_training_data
  rw [List.countP_flatMap]
  rw [sum_map_single li _ (uniqueLineItems evs) (List.nodup_dedup _) (by
    intro li2 _ hne
    simp only [Function.comp]
    rw [List.countP_flatMap]
    apply List.sum_eq_zero
    intro n hn
    rcases List.mem_map.mp hn with ⟨k2, _, rfl⟩
    simp only [Function.comp]
    exact groupSamples_countP_pos_ne evs m (fun hc => hne hc.1))]
  by_cases hli : li ∈ uniqueLineItems evs
  · rw [if_pos hli]
    simp only [Function.comp]
    rw [List.countP_flatMap]
    rw [sum_map_single k _ (ctxKeys (liEvents evs li)) (List.nodup_dedup _) (by
      intro k2 _ hne
      simp only [Function.comp]
      exact groupSamples_countP_pos_ne evs m (fun hc => hne hc.2))]
    by_cases hk : k ∈ ctxKeys (liEvents evs li)
    · rw [if_pos hk]
      simp only [Function.comp]
      exact groupSamples_countP_pos evs li k m
    · rw [if_neg hk, impCount_zero_no_ctx hk, clickCount_zero_no_ctx hk]
      by_cases hm : m ≤ 0
      · rw [if_pos hm]
      · rw [if_neg hm]
  · rw [if_neg hli, impCount_zero_no_li k hli, clickCount_zero_no_li k hli]
    by_cases hm : m ≤ 0
    · rw [if_pos hm]
    · rw [if_neg hm]

theorem negCount_prepare (evs : List EventRow) (m : Nat) (li : Int) (k : CtxKey) :
    negCount (prepare_training_data evs m) li k
      = if m ≤ impCount evs li k then
          min (impCount evs li k - clickCount evs li k) (3 * clickCount evs li k)
        else 0 := by
  unfold negCount prepare_training_data
  rw [List.countP_flatMap]
  rw [sum_map_single li _ (uniqueLineItems evs) (List.nodup_dedup _) (by
    intro li2 _ hne
    simp only [Function.comp]
    rw [List.countP_flatMap]
    apply List.sum_eq_zero
    intro n hn
    rcases List.mem_map.mp hn with ⟨k2, _, rfl⟩
    simp only [Function.comp]
    exact groupSamples_countP_neg_ne evs m (fun hc => hne hc.1))]
  by_cases hli : li ∈ uniqueLineItems evs
  · rw [if_pos hli]
    simp only [Function.comp]
    rw [List.countP_flatMap]
    rw [sum_map_single k _ (ctxKeys (liEvents evs li)) (List.nodup_dedup _) (by
      intro k2 _ hne
      simp only [Function.comp]
      exact groupSamples_countP_neg_ne evs m (fun hc => hne hc.2))]
    by_cases hk : k ∈ ctxKeys (liEvents evs li)
    · rw [if_pos hk]
      simp only [Function.comp]
      exact groupSamples_countP_neg evs li k m
    · rw [if_neg hk, impCount_zero_no_ctx hk, clickCount_zero_no_ctx hk]
      by_cases hm : m ≤ 0
      · rw [if_pos hm]
        simp
      · rw [if_neg hm]
  · rw [if_neg hli, impCount_zero_no_li k hli, clickCount_zero_no_li k hli]
    by_cases hm : m ≤ 0
    · rw [if_pos hm]
      simp
    · rw [if_neg hm]

theorem mem_prepare_decomp {evs : List EventRow} {m : Nat} {s : Sample}
    (h : s ∈ prepare_training_data evs m) :
    ∃ li k, li ∈ uniqueLineItems evs ∧ k ∈ ctxKeys (liEvents evs li)
      ∧ m ≤ impCount evs li k ∧ s.line_item_id = li ∧ sampleCtx s = k := by
  unfold prepare_training_data at h
  rcases List.mem_flatMap.mp h with ⟨li, hli, h1⟩
  rcases List.mem_flatMap.mp h1 with ⟨k, hk, h2⟩
  refine ⟨li, k, hli, hk, ?_⟩
  simp only [groupSamples] at h2
  by_cases hm : m ≤ impCount evs li k
  · rw [if_pos hm] at h2
    rcases List.mem_append.mp h2 with h3 | h3
    · have := List.eq_of_mem_replicate h3
      subst this
      exact ⟨hm, rfl, rfl⟩
    · have := List.eq_of_mem_replicate h3
      subst this
      exact ⟨hm, rfl, rfl⟩
  · rw [if_neg hm] at h2
    cases h2

theorem ctxKeys_occurrence {evs : List EventRow} {li : Int} {k : CtxKey}
    (hk : k ∈ ctxKeys (liEvents evs li)) :
    ∃ e ∈ evs, e.line_item_id = li ∧ ctxOf e = k := by
  rcases List.mem_map.mp (List.mem_dedup.mp hk) with ⟨e, he, hek⟩
  rcases List.mem_filter.mp he with ⟨hev, hdec⟩
  exact ⟨e, hev, of_decide_eq_true hdec, hek⟩

/-! ## Claim theorem: training-set assembler -/

/-- Claim C3: the assembler emits samples only for (line item, context)
groups whose impression count reaches min_impressions; for every group
with impression count I >= m and click count C it emits exactly C positive
samples and exactly min(I - C, 3*C) negative samples carrying the group's
fields (counts over naturals, the subtraction truncated at zero exactly as
iterating an empty Python range); when no occurring group qualifies, the
result is the empty collection. -/
theorem assembler_counts (evs : List EventRow) (m : Nat) :
    (∀ s ∈ prepare_training_data evs m, m ≤ impCount evs s.line_item_id (sampleCtx s))
      ∧ (∀ (li : Int) (k : CtxKey), m ≤ impCount evs li k →
          posCount (prepare_training_data evs m) li k = clickCount evs li k
            ∧ negCount (prepare_training_data evs m) li k
                = min (impCount evs li k - clickCount evs li k) (3 * clickCount evs li k))
      ∧ ((∀ (li : Int) (k : CtxKey),
            (∃ e ∈ evs, e.line_item_id = li ∧ ctxOf e = k) → impCount evs li k < m)
          → prepare_training_data evs m = []) := by
  refine ⟨?_, ?_, ?_⟩
  · intro s hs
    rcases mem_prepare_decomp hs with ⟨li, k, _, _, hm, hsli, hsk⟩
    rw [hsli, hsk]
    exact hm
  · intro li k hm
    constructor
    · rw [posCount_prepare, if_pos hm]
    · rw [negCount_prepare, if_pos hm]
  · intro hbelow
    rw [List.eq_nil_iff_forall_not_mem]
    intro s hs
    rcases mem_prepare_decomp hs with ⟨li, k, _, hk, hm, _, _⟩
    exact absurd hm (Nat.not_le.mpr (hbelow li k (ctxKeys_occurrence hk)))

/-- Claim C3 witness: three events (two impressions, one click) in one
group with threshold 1 give one positive and min(1, 3) = 1 negative
sample. -/
theorem assembler_counts_witness :
    (1 ≤ impCount evs0 1 k0)
      ∧ posCount (prepare_training_data evs0 1) 1 k0 = clickCount evs0 1 k0
      ∧ negCount (prepare_training_data evs0 1) 1 k0
          = min (impCount evs0 1 k0 - clickCount evs0 1 k0) (3 * clickCount evs0 1 k0) :=
  ⟨by decide, (assembler_counts evs0 1).2.1 1 k0 (by decide)⟩
